import Mathlib

/-!
# Hybrid Retrieval Engine — verification of the spec against the code

Shallow embedding of the hybrid retrieval engine
(`src/retrieval/hybrid/hybrid_retriever.py` and
`src/database/test_case_store.py`).

Modelling conventions:
* Python floats are modelled as rationals (`ℚ`); all score arithmetic in the
  code uses small decimal constants, so rational arithmetic is exact on them.
* Python strings are modelled as Lean `String`s; the embedding covers the
  ASCII fragment (SQLite `LOWER` and the code paths only lowercase ASCII).
* The SQLite table is modelled as a list of rows (`List Row`); the `id`
  PRIMARY KEY invariant appears as a `Nodup` hypothesis where needed.
* Fallible Python code (a raised exception) is modelled with `Option` /
  `Except`.
-/

namespace HybridRetrieval

/-- Python truthiness of an optional string field (`if x.get("k"):`):
`None`, a missing key and the empty string are all falsy. -/
def pyTruthyStr : Option String → Bool
  | none => false
  | some s => s ≠ ""

/-- ASCII upper-casing of one character (models Python `str.upper` and
SQLite `UPPER` on the ASCII fragment). -/
def upChar (c : Char) : Char :=
  if 97 ≤ c.toNat ∧ c.toNat ≤ 122 then Char.ofNat (c.toNat - 32) else c

/-- ASCII lower-casing of one character (models Python `str.lower` and
SQLite `LOWER` on the ASCII fragment). -/
def lowChar (c : Char) : Char :=
  if 65 ≤ c.toNat ∧ c.toNat ≤ 90 then Char.ofNat (c.toNat + 32) else c

/-- ASCII upper-casing of a string. -/
def strUpper (s : String) : String := ⟨s.data.map upChar⟩

/-- ASCII lower-casing of a string. -/
def strLower (s : String) : String := ⟨s.data.map lowChar⟩

/-- Split a character list at whitespace, dropping empty runs
(helper for `pySplitWs`); `cur` accumulates the current run reversed. -/
def splitWsAux : List Char → List Char → List (List Char)
  | cur, [] => if cur.isEmpty then [] else [cur.reverse]
  | cur, c :: rest =>
    if c.isWhitespace then
      if cur.isEmpty then splitWsAux [] rest
      else cur.reverse :: splitWsAux [] rest
    else splitWsAux (c :: cur) rest

/-- Python `str.split()` with no argument: split on whitespace runs and
drop empty pieces. -/
def pySplitWs (s : String) : List String :=
  (splitWsAux [] s.data).map String.mk

/-- Bool-valued contiguous-sublist test: `needle` occurs inside `hay`.
Models the Python `in` operator on strings (after `toList`). -/
def listInfixOf (needle : List Char) : List Char → Bool
  | [] => needle.isEmpty
  | c :: t => needle.isPrefixOf (c :: t) || listInfixOf needle t

/-- Python `needle in hay` for strings. -/
def strContains (hay needle : String) : Bool :=
  listInfixOf needle.toList hay.toList

/-! ## JSON serialization of string lists

`store_test_case` writes `json.dumps(tags)` / `json.dumps(components)` into
TEXT columns, and `search_by_keywords` runs its `LIKE` filters against those
serialized columns.  We model `json.dumps` on lists of strings (ASCII
fragment; astral characters, which Python escapes as surrogate pairs, are
outside the modelled fragment). -/

/-- Lower-case hex digit of a value `< 16` (as used by `json.dumps`
in `\uXXXX` escapes). -/
def hexDigit (n : Nat) : Char :=
  if n < 10 then Char.ofNat (48 + n) else Char.ofNat (87 + n)

/-- The escape sequence `json.dumps` produces for one character. -/
def jsonEscapeChar (c : Char) : List Char :=
  if c = '\\' then ['\\', '\\']
  else if c = '"' then ['\\', '"']
  else if c = '\n' then ['\\', 'n']
  else if c = '\t' then ['\\', 't']
  else if c = '\r' then ['\\', 'r']
  else if c.toNat = 8 then ['\\', 'b']
  else if c.toNat = 12 then ['\\', 'f']
  else if c.toNat < 32 ∨ c.toNat > 126 then
    ['\\', 'u', hexDigit (c.toNat / 4096 % 16), hexDigit (c.toNat / 256 % 16),
      hexDigit (c.toNat / 16 % 16), hexDigit (c.toNat % 16)]
  else [c]

/-- Serialization (`json.dumps`) of one string (including the surrounding quotes). -/
def jsonQuote (s : String) : String :=
  ⟨'"' :: (s.data.map jsonEscapeChar).flatten ++ ['"']⟩

/-- Serialization (`json.dumps`) of a list of strings, with the default `", "` separator. -/
def jsonDumpsList (xs : List String) : String :=
  "[" ++ String.intercalate ", " (xs.map jsonQuote) ++ "]"

/-! ## SQL LIKE pattern matching

`search_by_keywords` filters with `LOWER(col) LIKE '%<kw>%'`.  `likeMatch`
models the SQL `LIKE` operator on the already-lowercased operands:
`%` matches any character sequence, `_` any single character, every other
pattern character matches itself.  (The code lowercases both operands, so
`LIKE`'s own ASCII case folding has no further effect.) -/

/-- Predicate transformer: `anySuffix f t` is true iff `f` holds of some suffix of `t`
(including `t` itself and the empty suffix). -/
def anySuffix (f : List Char → Bool) : List Char → Bool
  | [] => f []
  | c :: ts => f (c :: ts) || anySuffix f ts

/-- SQL `LIKE`: does pattern `p` match the whole text `t`? -/
def likeMatch : List Char → List Char → Bool
  | [], t => t.isEmpty
  | p :: ps, t =>
    if p = '%' then anySuffix (likeMatch ps) t
    else if p = '_' then
      match t with
      | [] => false
      | _ :: ts => likeMatch ps ts
    else
      match t with
      | [] => false
      | c :: ts => (p == c) && likeMatch ps ts

/-- The pattern `search_by_keywords` builds for one (already lowercased)
keyword: `f"%{keyword_lower}%"`. -/
def likePattern (kw : String) : List Char :=
  '%' :: (kw.data ++ ['%'])

/-- A string is free of SQL LIKE wildcards. -/
def noWild (l : List Char) : Prop := ∀ c ∈ l, c ≠ '%' ∧ c ≠ '_'

instance (l : List Char) : Decidable (noWild l) := by
  unfold noWild
  infer_instance

/-! ## Data model

A `Row` models one row of the `test_cases` SQLite table (timestamps, which
no verified claim mentions, are omitted).  `tags` and `components` are kept
in parsed form; the TEXT columns hold `jsonDumpsList` of them. -/

/-- One row of the `test_cases` table. `vector` is `none` when the column is
NULL; metadata is kept as the serialized TEXT column value. -/
structure Row where
  id : String
  title : String
  priority : String
  tags : List String
  components : List String
  text_blob : String
  vector : Option (List ℚ)
  metadata_blob : String
deriving DecidableEq

/-- The retrieval configuration dictionary (`self.config`). -/
structure Config where
  keyword_weight : ℚ
  semantic_weight : ℚ
  priority_weight : ℚ
  max_candidates : ℕ
  max_results : ℕ
  min_similarity_threshold : ℚ
deriving DecidableEq

/-- The default configuration built in `HybridRetriever.__init__` when none
is supplied. -/
def defaultConfig : Config :=
  { keyword_weight := 2/5, semantic_weight := 2/5, priority_weight := 1/5,
    max_candidates := 200, max_results := 10, min_similarity_threshold := 1/10 }

/-- A candidate dict as returned by `search_by_keywords`.  `semantic_score`
is `none` until `_semantic_rerank` adds the key. -/
structure Candidate where
  doc_id : String
  title : String
  priority : String
  tags : List String
  components : List String
  text_blob : String
  vector : Option (List ℚ)
  semantic_score : Option ℚ
deriving DecidableEq

/-- A candidate after `_apply_ranking` added the score keys. -/
structure Scored where
  cand : Candidate
  keyword_score : ℚ
  semantic_score : ℚ
  priority_score : ℚ
  score : ℚ
deriving DecidableEq

/-! ## Document store: `search_by_keywords` -/

/-- The SQL `WHERE` clause of `search_by_keywords`: some keyword
LIKE-matches some of the four lowered columns (`tags` / `components` are
matched in their serialized TEXT form). -/
def rowMatches (keywords : List String) (r : Row) : Bool :=
  keywords.any fun kw =>
    likeMatch (likePattern (strLower kw)) (strLower r.title).data ||
    likeMatch (likePattern (strLower kw)) (strLower r.text_blob).data ||
    likeMatch (likePattern (strLower kw)) (strLower (jsonDumpsList r.tags)).data ||
    likeMatch (likePattern (strLower kw)) (strLower (jsonDumpsList r.components)).data

/-- The `ORDER BY priority ASC, title ASC` comparison (SQLite BINARY
collation, which agrees with codepoint order on the modelled fragment). -/
def rowLE (a b : Row) : Bool :=
  decide (a.priority < b.priority) ||
    (a.priority == b.priority && !(decide (b.title < a.title)))

/-- Building the result dict for one fetched row. -/
def rowToCandidate (r : Row) : Candidate :=
  { doc_id := r.id, title := r.title, priority := r.priority, tags := r.tags,
    components := r.components, text_blob := r.text_blob, vector := r.vector,
    semantic_score := none }

/-- Model of `TestCaseStore.search_by_keywords`: empty keyword list short-circuits to
`[]`; otherwise filter by the `WHERE` clause, order, truncate to `limit`.
The SQL sort is modelled as a stable merge sort by `(priority, title)`. -/
def search_by_keywords (rows : List Row) (keywords : List String) (limit : ℕ) :
    List Candidate :=
  if keywords.isEmpty then []
  else ((((rows.filter (rowMatches keywords)).mergeSort rowLE).take limit).map
    rowToCandidate)

/-! ## Keyword extractor (`HybridRetriever._extract_keywords`) -/

/-- The fixed domain vocabulary from `_extract_keywords`. -/
def domain_terms : List String :=
  ["onboarding", "positions", "graphql", "api", "ui", "auth", "authentication",
   "booking", "shift", "approval", "cancellation", "notification", "push",
   "token", "refresh", "login", "logout", "user", "profile", "settings",
   "payment", "billing", "subscription", "waitlist", "queue", "priority"]

/-- The stop word list `sklearn.feature_extraction.text.ENGLISH_STOP_WORDS` (the frozen
Glasgow IR stop word list shipped with scikit-learn). -/
def sklearn_stop_words : List String :=
  ["a", "about", "above", "across", "after", "afterwards", "again", "against",
   "all", "almost", "alone", "along", "already", "also", "although", "always",
   "am", "among", "amongst", "amoungst", "amount", "an", "and", "another",
   "any", "anyhow", "anyone", "anything", "anyway", "anywhere", "are",
   "around", "as", "at", "back", "be", "became", "because", "become",
   "becomes", "becoming", "been", "before", "beforehand", "behind", "being",
   "below", "beside", "besides", "between", "beyond", "bill", "both",
   "bottom", "but", "by", "call", "can", "cannot", "cant", "co", "con",
   "could", "couldnt", "cry", "de", "describe", "detail", "do", "done",
   "down", "due", "during", "each", "eg", "eight", "either", "eleven",
   "else", "elsewhere", "empty", "enough", "etc", "even", "ever", "every",
   "everyone", "everything", "everywhere", "except", "few", "fifteen",
   "fifty", "fill", "find", "fire", "first", "five", "for", "former",
   "formerly", "forty", "found", "four", "from", "front", "full", "further",
   "get", "give", "go", "had", "has", "hasnt", "have", "he", "hence", "her",
   "here", "hereafter", "hereby", "herein", "hereupon", "hers", "herself",
   "him", "himself", "his", "how", "however", "hundred", "i", "ie", "if",
   "in", "inc", "indeed", "interest", "into", "is", "it", "its", "itself",
   "keep", "last", "latter", "latterly", "least", "less", "ltd", "made",
   "many", "may", "me", "meanwhile", "might", "mill", "mine", "more",
   "moreover", "most", "mostly", "move", "much", "must", "my", "myself",
   "name", "namely", "neither", "never", "nevertheless", "next", "nine",
   "no", "nobody", "none", "noone", "nor", "not", "nothing", "now",
   "nowhere", "of", "off", "often", "on", "once", "one", "only", "onto",
   "or", "other", "others", "otherwise", "our", "ours", "ourselves", "out",
   "over", "own", "part", "per", "perhaps", "please", "put", "rather", "re",
   "same", "see", "seem", "seemed", "seeming", "seems", "serious", "several",
   "she", "should", "show", "side", "since", "sincere", "six", "sixty", "so",
   "some", "somehow", "someone", "something", "sometime", "sometimes",
   "somewhere", "still", "such", "system", "take", "ten", "than", "that",
   "the", "their", "them", "themselves", "then", "thence", "there",
   "thereafter", "thereby", "therefore", "therein", "thereupon", "these",
   "they", "thick", "thin", "third", "this", "those", "though", "three",
   "through", "throughout", "thru", "thus", "to", "together", "too", "top",
   "toward", "towards", "twelve", "twenty", "two", "un", "under", "until",
   "up", "upon", "us", "very", "via", "was", "we", "well", "were", "what",
   "whatever", "when", "whence", "whenever", "where", "whereafter",
   "whereas", "whereby", "wherein", "whereupon", "wherever", "whether",
   "which", "while", "whither", "who", "whoever", "whole", "whom", "whose",
   "why", "will", "with", "within", "without", "would", "yet", "you",
   "your", "yours", "yourself", "yourselves"]

/-- The character class of the token regex `\b[a-zA-Z0-9_-]+\b`. -/
def isWordClassChar (c : Char) : Bool :=
  ('a' ≤ c && c ≤ 'z') || ('A' ≤ c && c ≤ 'Z') || ('0' ≤ c && c ≤ '9') ||
    c == '_' || c == '-'

/-- Maximal runs of characters satisfying `p`; `cur` holds the current run
reversed. -/
def runsAux (p : Char → Bool) : List Char → List Char → List (List Char)
  | cur, [] => if cur.isEmpty then [] else [cur.reverse]
  | cur, c :: rest =>
    if p c then runsAux p (c :: cur) rest
    else if cur.isEmpty then runsAux p [] rest
    else cur.reverse :: runsAux p [] rest

/-- Drop leading and trailing hyphens. -/
def stripHyphens (l : List Char) : List Char :=
  ((l.dropWhile (· == '-')).reverse.dropWhile (· == '-')).reverse

/-- Model of `re.findall(r'\b[a-zA-Z0-9_-]+\b', s)`.  Since `-` is in the character
class but is not a word character, the `\b` anchors make each match exactly
a maximal class-character run with its leading and trailing hyphens
stripped (runs of hyphens alone produce no match). -/
def pyFindTokens (s : String) : List String :=
  ((runsAux isWordClassChar [] s.data).map stripHyphens).filterMap
    fun r => if r.isEmpty then none else some (String.mk r)

/-- Order-preserving deduplication (`list(dict.fromkeys(xs))`); `seen`
accumulates the values already emitted. -/
def dedupeAux : List String → List String → List String
  | _, [] => []
  | seen, x :: rest =>
    if seen.contains x then dedupeAux seen rest
    else x :: dedupeAux (x :: seen) rest

/-- Model of `HybridRetriever._extract_keywords`: domain-vocabulary hits first, then
general tokens of length `> 2` that are not stop words, deduplicated
preserving first-seen order. -/
def extract_keywords (query_text : String) : List String :=
  let query_lower := strLower query_text
  let domain_keywords := domain_terms.filter fun term => strContains query_lower term
  let words := pyFindTokens query_lower
  let general_keywords := words.filter fun w =>
    decide (w.length > 2) && !(sklearn_stop_words.contains w)
  dedupeAux [] (domain_keywords ++ general_keywords)

/-! ## Weighted ranker (`_apply_ranking` and its helpers) -/

/-- Model of `HybridRetriever._calculate_keyword_score`: +0.5 for a query token in
the title, +0.1 per query token in the text blob capped at +0.3, +0.2 for a
query token in the joined tags/components, total capped at 1.0. -/
def calculate_keyword_score (query_lower : String) (c : Candidate) : ℚ :=
  let words := pySplitWs query_lower
  let s1 : ℚ := if words.any (fun w => strContains (strLower c.title) w) then 1/2 else 0
  let matchCount := (words.filter fun w => strContains (strLower c.text_blob) w).length
  let s2 : ℚ := min ((matchCount : ℚ) * (1/10)) (3/10)
  let all_tags := strLower (String.intercalate " " (c.tags ++ c.components))
  let s3 : ℚ := if words.any (fun w => strContains all_tags w) then 1/5 else 0
  min (s1 + s2 + s3) 1

/-- The `priority_scores` lookup table with its 0.6 default
(`priority_scores.get(priority_prefix, 0.6)`). -/
def priorityTable (p : String) : ℚ :=
  if p = "P1" then 1
  else if p = "P2" then 4/5
  else if p = "P3" then 3/5
  else if p = "P4" then 2/5
  else 3/5

/-- Model of `HybridRetriever._calculate_priority_score`.  Result `none` models the
`IndexError` that `priority.split()[0]` raises when `priority` is a
nonempty string consisting only of whitespace. -/
def calculate_priority_score (priority : String) : Option ℚ :=
  if priority = "" then some (priorityTable "P3")
  else
    match pySplitWs priority with
    | [] => none
    | t :: _ => some (priorityTable (strUpper t))

/-- The weighted score fusion computed in `_apply_ranking`. -/
def fused_score (cfg : Config) (keyword_score semantic_score priority_score : ℚ) : ℚ :=
  cfg.keyword_weight * keyword_score + cfg.semantic_weight * semantic_score +
    cfg.priority_weight * priority_score

/-- The per-candidate score assignment in the `_apply_ranking` loop.
`semantic_score` defaults to 0 when the key is absent
(`candidate.get("semantic_score", 0.0)`). -/
def scoreCandidate (cfg : Config) (query_lower : String) (c : Candidate) :
    Option Scored :=
  let ks := calculate_keyword_score query_lower c
  let ss := c.semantic_score.getD 0
  (calculate_priority_score c.priority).map fun ps =>
    { cand := c, keyword_score := ks, semantic_score := ss, priority_score := ps,
      score := fused_score cfg ks ss ps }

/-- The comparison of `sorted(candidates, key=..., reverse=True)`:
descending by score, ties keeping the left element first. -/
def scoredLE (a b : Scored) : Bool := decide (b.score ≤ a.score)

/-- The scoring loop of `_apply_ranking`: scores are attached candidate by
candidate; a raised `IndexError` (modelled by `none`) aborts the call. -/
def scoreList (cfg : Config) (query_lower : String) :
    List Candidate → Option (List Scored)
  | [] => some []
  | c :: rest =>
    match scoreCandidate cfg query_lower c, scoreList cfg query_lower rest with
    | some s, some rs => some (s :: rs)
    | _, _ => none

/-- Model of `HybridRetriever._apply_ranking`: score every candidate, sort stably
descending by score (Python `sorted` is stable; modelled by the stable
merge sort), keep scores `>= min_similarity_threshold`. -/
def apply_ranking (cfg : Config) (query_text : String) (cands : List Candidate) :
    Option (List Scored) :=
  (scoreList cfg (strLower query_text) cands).map fun scored =>
    (scored.mergeSort scoredLE).filter fun s =>
      cfg.min_similarity_threshold ≤ s.score

/-! ## Semantic reranker and `query` -/

/-- Python truthiness of the optional `vector` field: `None` and the empty
list are falsy. -/
def vecTruthy : Option (List ℚ) → Bool
  | none => false
  | some v => !v.isEmpty

/-- One iteration of the `_semantic_rerank` loop: attach the cosine
similarity, or raise for a candidate without a stored vector.  The cosine
function itself is a parameter `sim` (its numeric value is irrelevant to
every verified claim). -/
def rerankOne (sim : List ℚ → List ℚ → ℚ) (query_embedding : List ℚ)
    (c : Candidate) : Except String Candidate :=
  match c.vector with
  | some v =>
    if v.isEmpty then
      .error ("Test case " ++ c.doc_id ++ " has no vector embedding.")
    else .ok { c with semantic_score := some (sim query_embedding v) }
  | none => .error ("Test case " ++ c.doc_id ++ " has no vector embedding.")

/-- The `_semantic_rerank` loop: the first candidate without a stored
vector raises, aborting the whole pass. -/
def rerankList (sim : List ℚ → List ℚ → ℚ) (query_embedding : List ℚ) :
    List Candidate → Except String (List Candidate)
  | [] => .ok []
  | c :: rest =>
    match rerankOne sim query_embedding c with
    | .error e => .error e
    | .ok c2 =>
      match rerankList sim query_embedding rest with
      | .error e => .error e
      | .ok rs => .ok (c2 :: rs)

/-- Model of `HybridRetriever._semantic_rerank`: score every candidate or fail for
the whole list; the raised error is rewrapped as in the Python
`except`/`raise RuntimeError` block. -/
def semantic_rerank (sim : List ℚ → List ℚ → ℚ) (query_embedding : List ℚ)
    (cands : List Candidate) : Except String (List Candidate) :=
  (rerankList sim query_embedding cands).mapError
    fun e => "Semantic re-ranking failed: " ++ e

/-- Model of `HybridRetriever.query`.  `embedding_model` is the
`self._embedding_model` handle (`none` when no provider is attached); the
encoder is modelled as a pure function. -/
def query (store : List Row) (embedding_model : Option (String → List ℚ))
    (sim : List ℚ → List ℚ → ℚ) (cfg : Config) (query_text : String)
    (top_k : ℕ) : Except String (List Scored) :=
  let keywords := extract_keywords query_text
  let candidates := search_by_keywords store keywords cfg.max_candidates
  if candidates.isEmpty then .ok []
  else
    match (match embedding_model with
      | some enc => semantic_rerank sim (enc query_text) candidates
      | none => .ok candidates) with
    | .error e => .error e
    | .ok cands2 =>
      match apply_ranking cfg query_text cands2 with
      | some ranked => .ok (ranked.take top_k)
      | none => .error "IndexError: list index out of range"

/-! ## Document store: `store_test_case` -/

/-- One element of a test case's `steps` list: either a plain string or an
object with optional `step_text` / `step_expected` fields. -/
inductive Step where
  | strStep (s : String)
  | objStep (step_text : Option String) (step_expected : Option String)
deriving DecidableEq

/-- The input dictionary of `store_test_case`.  `none` on an optional field
models an absent key (an explicit JSON `null` value is outside the modelled
fragment). -/
structure TestCase where
  id : Option String
  title : String
  description : Option String
  steps : List Step
  expected_result : Option String
  priority : Option String
  tags : List String
  preconditions : List String
  source_file : String
  created_by : Option String
deriving DecidableEq

/-- The singleton or empty contribution of a truthy optional string
(`if test_case.get(k): text_parts.append(...)`). -/
def optTruthy : Option String → List String
  | none => []
  | some s => if s = "" then [] else [s]

/-- The text fragments one step contributes to the text blob. -/
def stepTexts : Step → List String
  | .strStep s => [s]
  | .objStep t e => optTruthy t ++ optTruthy e

/-- The `text_blob` column: description, step texts/expectations and final
expected result joined with single spaces. -/
def textBlob (tc : TestCase) : String :=
  String.intercalate " "
    (optTruthy tc.description ++ (tc.steps.map stepTexts).flatten ++
      optTruthy tc.expected_result)

/-- Prefix test on strings (Python `str.startswith`). -/
def strStartsWith (s pre : String) : Bool := pre.data.isPrefixOf s.data

/-- First occurrence of the regex `P([0-3])` in a character list: the digit
following the first `P` that is directly followed by a digit `0`–`3`. -/
def findPriorityDigit : List Char → Option Char
  | [] => none
  | c :: rest =>
    match rest with
    | [] => none
    | d :: _ =>
      if c = 'P' ∧ '0' ≤ d ∧ d ≤ '3' then some d
      else findPriorityDigit rest

/-- Model of `TestCaseStore._extract_priority_from_string`. -/
def extract_priority_from_string (s : String) : String :=
  if s = "" then "P2"
  else
    match findPriorityDigit (strUpper s).data with
    | some d => String.mk ['P', d]
    | none =>
      let l := strLower s
      if ["critical", "urgent", "p0"].any (fun w => strContains l w) then "P0"
      else if ["high", "important", "p1"].any (fun w => strContains l w) then "P1"
      else if ["medium", "normal", "p2"].any (fun w => strContains l w) then "P2"
      else if ["low", "p3"].any (fun w => strContains l w) then "P3"
      else "P2"

/-- Model of `TestCaseStore._extract_priority`: the first tag that upper-cases to
one of P0–P3, else the default `"P2"`. -/
def extract_priority (tags : List String) : String :=
  match tags.find? (fun tag => ["P0", "P1", "P2", "P3"].contains (strUpper tag)) with
  | some tag => strUpper tag
  | none => "P2"

/-- The priority-normalization chain in `store_test_case`. -/
def normalizePriority (p : Option String) (tags : List String) : String :=
  let pr := p.getD "P2"
  let pr := if pr ≠ "" ∧ ¬ strStartsWith pr "P" then extract_priority_from_string pr
    else pr
  if pr = "" ∨ ¬ strStartsWith pr "P" then extract_priority tags else pr

/-- The component vocabulary used by `_extract_components`. -/
def comp_vocab : List String :=
  ["onboarding", "positions", "graphql", "api", "ui", "auth"]

/-- Model of `TestCaseStore._extract_components`: tags and preconditions containing
a vocabulary word, deduplicated.  (`list(set(xs))` iterates in an
unspecified hash order; the model keeps first-seen order, which no claim
depends on.) -/
def extract_components (tc : TestCase) : List String :=
  dedupeAux []
    ((tc.tags.filter fun tag => comp_vocab.any fun comp => strContains (strLower tag) comp) ++
      (tc.preconditions.filter fun p => comp_vocab.any fun comp => strContains (strLower p) comp))

/-- The stored `vector` column: `json.dumps(vector) if vector else None`,
so `None` and the empty list are both stored as NULL. -/
def storedVector : Option (List ℚ) → Option (List ℚ)
  | none => none
  | some v => if v.isEmpty then none else some v

/-- The serialized `metadata` column. -/
def metadataBlob (tc : TestCase) : String :=
  "\x7b\"preconditions\": " ++ jsonDumpsList tc.preconditions ++
    ", \"original_file\": " ++ jsonQuote tc.source_file ++
    ", \"created_by\": " ++ jsonQuote (tc.created_by.getD "system") ++ "\x7d"

/-- The id under which a test case is stored:
`test_case.get("id", self._generate_id(test_case))`.  The content hash
`_generate_id` (truncated md5 of title+description) is abstracted as the
parameter `genId`; every theorem quantifies over it. -/
def tcId (genId : TestCase → String) (tc : TestCase) : String :=
  tc.id.getD (genId tc)

/-- The row `store_test_case` writes. -/
def buildRow (genId : TestCase → String) (tc : TestCase)
    (vector : Option (List ℚ)) : Row :=
  { id := tcId genId tc, title := tc.title,
    priority := normalizePriority tc.priority tc.tags,
    tags := tc.tags, components := extract_components tc,
    text_blob := textBlob tc, vector := storedVector vector,
    metadata_blob := metadataBlob tc }

/-- Model of `TestCaseStore.store_test_case`: SQLite `INSERT OR REPLACE` on the
`id` PRIMARY KEY — any existing row with the same id is deleted and the
new row inserted. -/
def store_test_case (genId : TestCase → String) (rows : List Row)
    (tc : TestCase) (vector : Option (List ℚ)) : List Row :=
  let r := buildRow genId tc vector
  (rows.filter fun x => x.id != r.id) ++ [r]

/-! ## `load_from_cache` -/

/-- The facade state: bound store, configuration and the optional
embedding-model handle. -/
structure Retriever where
  store : List Row
  config : Config
  embedding_model : Option (String → List ℚ)

/-- The environment `load_from_cache` runs against: whether the database
file exists, its rows, the parsed `retriever_config.json` if present, and
whether `_load_embedding_model` succeeds (`none` models the import error
it raises when sentence-transformers is unavailable). -/
structure CacheEnv where
  dbExists : Bool
  rows : List Row
  cachedConfig : Option Config
  providerAvailable : Option (String → List ℚ)

/-- Model of `HybridRetriever.load_from_cache`.  Missing database file returns
`none`; every exception inside the `try` block — including the one raised
by `_load_embedding_model` — is caught by the blanket `except` and also
returns `none`. -/
def load_from_cache (env : CacheEnv) (config : Option Config) : Option Retriever :=
  if !env.dbExists then none
  else
    let cfg := env.cachedConfig.getD (config.getD defaultConfig)
    match env.providerAvailable with
    | none => none
    | some m => some { store := env.rows, config := cfg, embedding_model := some m }

/-! ## Spec-side predicate for keyword-filter soundness -/

/-- Written from the spec's words ("every document returned … contains at
least one queried token, case-insensitively, in title, text_blob, tags, or
components"), to be compared with the `LIKE`-based filter of
`search_by_keywords`; tags and components are the serialized record fields
of §6. -/
def containsKeywordCI (c : Candidate) (kw : String) : Bool :=
  strContains (strLower c.title) (strLower kw) ||
  strContains (strLower c.text_blob) (strLower kw) ||
  strContains (strLower (jsonDumpsList c.tags)) (strLower kw) ||
  strContains (strLower (jsonDumpsList c.components)) (strLower kw)

/-! ## Concrete instances used in witnesses -/

/-- A concrete P0 candidate. -/
def candP0 : Candidate :=
  { doc_id := "tc-p0", title := "Checkout", priority := "P0", tags := ["p0"],
    components := [], text_blob := "steps", vector := none,
    semantic_score := none }

/-- A concrete stored row without an embedding vector. -/
def rowLogin : Row :=
  { id := "t1", title := "Login flow", priority := "P1", tags := [],
    components := [], text_blob := "user logs in", vector := none,
    metadata_blob := "" }

/-- The scored candidate `query "login"` produces from `rowLogin` in
keyword-only mode (score fields kept as the defining expressions so that
`scoreCandidate` evaluates to it definitionally). -/
def scoredLogin : Scored :=
  { cand := rowToCandidate rowLogin,
    keyword_score := calculate_keyword_score (strLower "login") (rowToCandidate rowLogin),
    semantic_score := 0,
    priority_score := 1,
    score := fused_score defaultConfig
      (calculate_keyword_score (strLower "login") (rowToCandidate rowLogin)) 0 1 }

/-- A second stored row with the same priority and an equal fused score as
`rowLogin` for the query `"login"`. -/
def rowLoginB : Row :=
  { id := "t2", title := "Login flow B", priority := "P1", tags := [],
    components := [], text_blob := "user logs in", vector := none,
    metadata_blob := "" }

/-- The scored candidate produced from `rowLoginB` (same convention as
`scoredLogin`). -/
def scoredLoginB : Scored :=
  { cand := rowToCandidate rowLoginB,
    keyword_score := calculate_keyword_score (strLower "login") (rowToCandidate rowLoginB),
    semantic_score := 0,
    priority_score := 1,
    score := fused_score defaultConfig
      (calculate_keyword_score (strLower "login") (rowToCandidate rowLoginB)) 0 1 }

/-- A row whose title `"abc"` LIKE-matches the wildcard keyword `"a_c"`
without containing it as a substring. -/
def rowAbc : Row :=
  { id := "t3", title := "abc", priority := "P1", tags := [],
    components := [], text_blob := "x", vector := none, metadata_blob := "" }

/-- A test case re-using the already stored id `"t1"`. -/
def tcDup : TestCase :=
  { id := some "t1", title := "Login flow v2", description := some "new steps",
    steps := [], expected_result := none, priority := some "P2 - High",
    tags := [], preconditions := [], source_file := "f.json",
    created_by := none }

/-! ## Lemmas about LIKE matching and substring containment -/

theorem listInfixOf_iff (n h : List Char) : listInfixOf n h = true ↔ n <:+: h := by
  induction h with
  | nil =>
    simp [listInfixOf, List.isEmpty_iff]
  | cons c t ih =>
    simp [listInfixOf, ih, List.infix_cons_iff]

theorem strContains_iff (hay needle : String) :
    strContains hay needle = true ↔ needle.data <:+: hay.data := by
  simpa [strContains, String.toList] using listInfixOf_iff needle.data hay.data

theorem anySuffix_iff (f : List Char → Bool) (t : List Char) :
    anySuffix f t = true ↔ ∃ t', t' <:+ t ∧ f t' = true := by
  induction t with
  | nil =>
    simp [anySuffix]
  | cons c ts ih =>
    simp only [anySuffix, Bool.or_eq_true, ih, List.suffix_cons_iff]
    constructor
    · rintro (h | ⟨t', ht', hf⟩)
      · exact ⟨c :: ts, Or.inl rfl, h⟩
      · exact ⟨t', Or.inr ht', hf⟩
    · rintro ⟨t', (rfl | ht'), hf⟩
      · exact Or.inl hf
      · exact Or.inr ⟨t', ht', hf⟩

theorem likeMatch_append_percent (kw : List Char) (hw : noWild kw) :
    ∀ t : List Char, (likeMatch (kw ++ ['%']) t = true ↔ kw <+: t) := by
  induction kw with
  | nil =>
    intro t
    have h1 : likeMatch (([] : List Char) ++ ['%']) t = anySuffix (likeMatch []) t := by
      simp [likeMatch]
    rw [h1, anySuffix_iff]
    simp [likeMatch, List.isEmpty_iff]
  | cons a kw ih =>
    intro t
    have ha := hw a (List.mem_cons_self a kw)
    have ihw : noWild kw := fun c hc => hw c (List.mem_cons_of_mem a hc)
    cases t with
    | nil => simp [likeMatch, ha.1, ha.2]
    | cons c ts =>
      simp [likeMatch, ha.1, ha.2, ih ihw ts, List.cons_prefix_cons]

theorem toNat_ofNat_of_lt {n : Nat} (h : n < 55296) : (Char.ofNat n).toNat = n := by
  rw [Char.ofNat, dif_pos (Or.inl h)]
  rfl

theorem lowChar_wild_free (c : Char) (hc : c ≠ '%' ∧ c ≠ '_') :
    lowChar c ≠ '%' ∧ lowChar c ≠ '_' := by
  unfold lowChar
  split
  · rename_i h
    obtain ⟨ha, hb⟩ := h
    have ht : (Char.ofNat (c.toNat + 32)).toNat = c.toNat + 32 :=
      toNat_ofNat_of_lt (by omega)
    have h37 : ('%' : Char).toNat = 37 := rfl
    have h95 : ('_' : Char).toNat = 95 := rfl
    constructor
    · intro he; rw [he, h37] at ht; omega
    · intro he; rw [he, h95] at ht; omega
  · exact hc

theorem noWild_strLower (s : String) (h : noWild s.data) :
    noWild (strLower s).data := by
  intro c hc
  simp only [strLower, List.mem_map] at hc
  obtain ⟨c', hc', rfl⟩ := hc
  exact lowChar_wild_free c' (h c' hc')

theorem likeMatch_pattern_iff (kw : String) (hw : noWild kw.data) (t : List Char) :
    likeMatch (likePattern kw) t = true ↔ kw.data <:+: t := by
  have h1 : likeMatch (likePattern kw) t
      = anySuffix (likeMatch (kw.data ++ ['%'])) t := by
    simp [likePattern, likeMatch]
  rw [h1, anySuffix_iff, List.infix_iff_prefix_suffix]
  constructor
  · rintro ⟨t', ht', hm⟩
    exact ⟨t', (likeMatch_append_percent kw.data hw t').1 hm, ht'⟩
  · rintro ⟨t', hm, ht'⟩
    exact ⟨t', ht', (likeMatch_append_percent kw.data hw t').2 hm⟩

/-! ## Claim theorems -/

/-- C4, counterexample: `_calculate_priority_score` does not return the
0.6 default on the unrecognized priority string `" "` — `" ".split()[0]`
raises `IndexError` (modelled by `none`), so the result is not `0.6`. -/
theorem priority_score_whitespace_cex :
    calculate_priority_score " " ≠ some (3/5) := by
  rw [show calculate_priority_score " " = none from rfl]
  exact fun h => Option.noConfusion h

/-- C4, amended: `priority_score` is 1.0/0.8/0.6/0.4 for first token
P1/P2/P3/P4 (case-insensitively), 0.6 for an empty or unrecognized-token
priority; but a nonempty whitespace-only priority string raises an
`IndexError` instead of defaulting.  The resulting values are strictly
decreasing from P1 to P4. -/
theorem priority_score_table (p : String) :
    (p = "" → calculate_priority_score p = some (3/5)) ∧
    (pySplitWs p = [] → p ≠ "" → calculate_priority_score p = none) ∧
    (∀ t ts, pySplitWs p = t :: ts →
      calculate_priority_score p =
        some (if strUpper t = "P1" then 1
          else if strUpper t = "P2" then 4/5
          else if strUpper t = "P3" then 3/5
          else if strUpper t = "P4" then 2/5
          else 3/5)) ∧
    ((calculate_priority_score "P2").getD 0 < (calculate_priority_score "P1").getD 0 ∧
      (calculate_priority_score "P3").getD 0 < (calculate_priority_score "P2").getD 0 ∧
      (calculate_priority_score "P4").getD 0 < (calculate_priority_score "P3").getD 0) := by
  refine ⟨fun h => by subst h; rfl, fun hsplit hne => ?_, fun t ts hsplit => ?_, ?_⟩
  · unfold calculate_priority_score
    rw [if_neg hne, hsplit]
  · by_cases hp : p = ""
    · subst hp
      rw [show pySplitWs "" = [] from rfl] at hsplit
      cases hsplit
    · unfold calculate_priority_score
      rw [if_neg hp, hsplit]
      rfl
  · rw [show calculate_priority_score "P1" = some 1 from rfl,
      show calculate_priority_score "P2" = some (4/5) from rfl,
      show calculate_priority_score "P3" = some (3/5) from rfl,
      show calculate_priority_score "P4" = some (2/5) from rfl]
    norm_num

/-- C4, witness: the amended table applied to the concrete priority string
`"p2 - high"`. -/
theorem priority_score_table_witness :
    calculate_priority_score "p2 - high" = some (4/5) := by
  have h := (priority_score_table "p2 - high").2.2.1 "p2" ["-", "high"] (by decide)
  rw [h, show strUpper "p2" = "P2" from by decide]
  simp

/-- C5: with non-negative weights, the fused score
`kw*keyword + sw*semantic + pw*priority` is monotone in each of the three
scores separately. -/
theorem fused_score_monotone (cfg : Config)
    (hk : 0 ≤ cfg.keyword_weight) (hs : 0 ≤ cfg.semantic_weight)
    (hp : 0 ≤ cfg.priority_weight) (ks ks' ss ss' ps ps' : ℚ) :
    (ks ≤ ks' → fused_score cfg ks ss ps ≤ fused_score cfg ks' ss ps) ∧
    (ss ≤ ss' → fused_score cfg ks ss ps ≤ fused_score cfg ks ss' ps) ∧
    (ps ≤ ps' → fused_score cfg ks ss ps ≤ fused_score cfg ks ss ps') := by
  unfold fused_score
  refine ⟨fun h => ?_, fun h => ?_, fun h => ?_⟩
  · have := mul_le_mul_of_nonneg_left h hk
    linarith
  · have := mul_le_mul_of_nonneg_left h hs
    linarith
  · have := mul_le_mul_of_nonneg_left h hp
    linarith

/-- C5, witness: monotonicity in the keyword score at the default
configuration. -/
theorem fused_score_monotone_witness :
    fused_score defaultConfig 0 (1/2) (3/5) ≤ fused_score defaultConfig 1 (1/2) (3/5) :=
  (fused_score_monotone defaultConfig (by norm_num [defaultConfig])
    (by norm_num [defaultConfig]) (by norm_num [defaultConfig])
    0 1 (1/2) (1/2) (3/5) (3/5)).1 (by norm_num)

/-- C9: a candidate stored with priority `"P0"` (which
`_extract_priority` can produce, e.g. from a `"p0"` tag) receives
priority score 0.6 from the ranker — the same value as `"P3"` and as the
unrecognized-priority default, so P0 gets no boost. -/
theorem p0_scores_as_default (cfg : Config) (ql : String) (c : Candidate)
    (hp : c.priority = "P0") :
    (scoreCandidate cfg ql c).map Scored.priority_score = some (3/5) ∧
    calculate_priority_score "P0" = calculate_priority_score "P3" ∧
    calculate_priority_score "P0" = calculate_priority_score "unrecognized" ∧
    extract_priority ["p0"] = "P0" := by
  refine ⟨?_, rfl, rfl, by decide⟩
  unfold scoreCandidate
  rw [hp, show calculate_priority_score "P0" = some (3/5) from rfl]
  rfl

/-- C9, witness: a concrete P0 candidate. -/
theorem p0_scores_witness :
    (scoreCandidate defaultConfig "checkout" candP0).map Scored.priority_score
      = some (3/5) :=
  (p0_scores_as_default defaultConfig "checkout" candP0 rfl).1

/-! ## Evaluation helpers for the concrete witnesses -/

theorem searchLoginKw_eval :
    search_by_keywords [rowLogin] ["login"] 200 = [rowToCandidate rowLogin] := by
  simp [search_by_keywords,
    show [rowLogin].filter (rowMatches ["login"]) = [rowLogin] from by decide]

theorem searchLogin_eval :
    search_by_keywords [rowLogin] (extract_keywords "login")
      defaultConfig.max_candidates = [rowToCandidate rowLogin] := by
  rw [show extract_keywords "login" = ["login"] from by decide,
    show defaultConfig.max_candidates = 200 from rfl]
  exact searchLoginKw_eval

theorem ksLogin_eval :
    calculate_keyword_score (strLower "login") (rowToCandidate rowLogin) = 1/2 := by
  simp only [calculate_keyword_score]
  rw [show pySplitWs (strLower "login") = ["login"] from by decide]
  rw [show (["login"].any fun w =>
      strContains (strLower (rowToCandidate rowLogin).title) w) = true from by decide]
  rw [show (["login"].filter fun w =>
      strContains (strLower (rowToCandidate rowLogin).text_blob) w) = [] from by decide]
  rw [show (["login"].any fun w =>
      strContains (strLower (String.intercalate " "
        ((rowToCandidate rowLogin).tags ++ (rowToCandidate rowLogin).components))) w)
      = false from by decide]
  norm_num

theorem scoredLogin_score : scoredLogin.score = 2/5 := by
  show fused_score defaultConfig
    (calculate_keyword_score (strLower "login") (rowToCandidate rowLogin)) 0 1 = 2/5
  rw [ksLogin_eval]
  norm_num [fused_score, defaultConfig]

theorem applyRankLogin_eval :
    apply_ranking defaultConfig "login" [rowToCandidate rowLogin] = some [scoredLogin] := by
  have h1 : scoreList defaultConfig (strLower "login") [rowToCandidate rowLogin]
      = some [scoredLogin] := rfl
  unfold apply_ranking
  rw [h1]
  simp only [Option.map_some', List.mergeSort_singleton]
  have hf : ([scoredLogin].filter fun s =>
      decide (defaultConfig.min_similarity_threshold ≤ s.score)) = [scoredLogin] := by
    simp [scoredLogin_score, defaultConfig]
    norm_num
  rw [hf]

theorem queryLogin_eval :
    query [rowLogin] none (fun _ _ => 0) defaultConfig "login" 10 = .ok [scoredLogin] := by
  simp only [query]
  rw [searchLogin_eval]
  simp only [List.isEmpty_cons, Bool.false_eq_true, if_false]
  rw [applyRankLogin_eval]
  rfl

/-! ## Remaining claim theorems -/

theorem rerankList_error_of_missing_vector (sim : List ℚ → List ℚ → ℚ)
    (qe : List ℚ) (l : List Candidate)
    (h : ∃ c ∈ l, c.vector = none) :
    ∃ e, rerankList sim qe l = .error e := by
  induction l with
  | nil => simp at h
  | cons c rest ih =>
    obtain ⟨c', hc', hv⟩ := h
    rcases List.mem_cons.mp hc' with rfl | hmem
    · exact ⟨"Test case " ++ c'.doc_id ++ " has no vector embedding.",
        by simp [rerankList, rerankOne, hv]⟩
    · cases ho : rerankOne sim qe c with
      | error e2 => exact ⟨e2, by simp [rerankList, ho]⟩
      | ok c2 =>
        obtain ⟨e, he⟩ := ih ⟨c', hmem, hv⟩
        exact ⟨e, by simp [rerankList, ho, he]⟩

/-- C1: when an embedding provider is attached and the keyword stage
returns at least one candidate without a stored vector, `query` fails with
an error and returns no result list at all. -/
theorem query_rerank_inconsistency (store : List Row) (enc : String → List ℚ)
    (sim : List ℚ → List ℚ → ℚ) (cfg : Config) (qt : String) (k : ℕ)
    (h : ∃ c ∈ search_by_keywords store (extract_keywords qt) cfg.max_candidates,
      c.vector = none) :
    ∃ e, query store (some enc) sim cfg qt k = .error e := by
  obtain ⟨c, hc, hv⟩ := h
  have hne : (search_by_keywords store (extract_keywords qt) cfg.max_candidates).isEmpty
      = false := by
    cases hcand : search_by_keywords store (extract_keywords qt) cfg.max_candidates with
    | nil => rw [hcand] at hc; cases hc
    | cons x xs => rfl
  obtain ⟨e, he⟩ := rerankList_error_of_missing_vector sim (enc qt)
    (search_by_keywords store (extract_keywords qt) cfg.max_candidates) ⟨c, hc, hv⟩
  refine ⟨"Semantic re-ranking failed: " ++ e, ?_⟩
  simp only [query, hne, Bool.false_eq_true, if_false]
  simp only [semantic_rerank, he]
  rfl

/-- C1, witness: a one-row store whose row has no vector, queried with a
provider attached, yields an error. -/
theorem query_rerank_inconsistency_witness :
    (query [rowLogin] (some fun _ => [1]) (fun _ _ => 0) defaultConfig
      "login" 10).isOk = false := by
  obtain ⟨e, he⟩ := query_rerank_inconsistency [rowLogin] (fun _ => [1])
    (fun _ _ => 0) defaultConfig "login" 10
    ⟨rowToCandidate rowLogin, by rw [searchLogin_eval]; exact List.mem_singleton.mpr rfl, rfl⟩
  rw [he]
  rfl

/-- C3: every element of a successful `query` result has fused score at
least `min_similarity_threshold`; lower-scoring candidates are excluded. -/
theorem query_threshold (store : List Row) (em : Option (String → List ℚ))
    (sim : List ℚ → List ℚ → ℚ) (cfg : Config) (qt : String) (k : ℕ)
    (out : List Scored) (h : query store em sim cfg qt k = .ok out) :
    ∀ s ∈ out, cfg.min_similarity_threshold ≤ s.score := by
  simp only [query] at h
  split at h
  · obtain rfl : ([] : List Scored) = out := by injection h
    intro s hs
    simp at hs
  · split at h
    · cases h
    · rename_i cands2 heq2
      split at h
      · rename_i ranked hrank
        obtain rfl : ranked.take k = out := by injection h
        intro s hs
        have hs' : s ∈ ranked := List.mem_of_mem_take hs
        unfold apply_ranking at hrank
        obtain ⟨scored, hsl, hmap⟩ := Option.map_eq_some'.mp hrank
        rw [← hmap] at hs'
        exact of_decide_eq_true (List.mem_filter.mp hs').2
      · cases h

/-- C3, witness: the concrete one-row query keeps its single result, whose
score meets the default threshold. -/
theorem query_threshold_witness :
    defaultConfig.min_similarity_threshold ≤ scoredLogin.score :=
  query_threshold [rowLogin] none (fun _ _ => 0) defaultConfig "login" 10
    [scoredLogin] queryLogin_eval scoredLogin (List.mem_singleton.mpr rfl)

/-- C10: `search_by_keywords` with an empty keyword list returns the empty
list (not all documents); hence a query whose text yields no keywords
returns the empty list, independently of the embedding provider. -/
theorem empty_keywords_query (store : List Row) (em : Option (String → List ℚ))
    (sim : List ℚ → List ℚ → ℚ) (cfg : Config) (qt : String) (k lim : ℕ)
    (hq : extract_keywords qt = []) :
    search_by_keywords store [] lim = [] ∧
    query store em sim cfg qt k = .ok [] ∧
    query store em sim cfg qt k = query store none sim cfg qt k := by
  have h1 : ∀ em2 : Option (String → List ℚ),
      query store em2 sim cfg qt k = .ok [] := by
    intro em2
    simp only [query, hq]
    rfl
  exact ⟨rfl, h1 em, (h1 em).trans (h1 none).symm⟩

/-- C10, witness: a stop-word-only query against a concrete store. -/
theorem empty_keywords_query_witness :
    query [rowLogin] (some fun _ => [1]) (fun _ _ => 0) defaultConfig
      "the of at" 5 = .ok [] :=
  (empty_keywords_query [rowLogin] (some fun _ => [1]) (fun _ _ => 0)
    defaultConfig "the of at" 5 7 (by decide)).2.1

theorem scoredLE_trans (a b c : Scored) (hab : scoredLE a b) (hbc : scoredLE b c) :
    scoredLE a c := by
  simp only [scoredLE, decide_eq_true_eq] at *
  exact le_trans hbc hab

theorem scoredLE_total (a b : Scored) : scoredLE a b || scoredLE b a := by
  rcases le_total b.score a.score with h | h
  · simp [scoredLE, h]
  · simp [scoredLE, h]

/-- C6: `_apply_ranking` sorts candidates by fused score in descending
order with a stable sort — any two candidates with equal score that both
survive the threshold keep the relative order in which the keyword stage
produced them. -/
theorem ranking_stable_sort (cfg : Config) (qt : String) (cands : List Candidate)
    (scored out : List Scored)
    (hs : scoreList cfg (strLower qt) cands = some scored)
    (hr : apply_ranking cfg qt cands = some out) :
    List.Pairwise (fun a b : Scored => b.score ≤ a.score) out ∧
    (∀ a b : Scored, [a, b].Sublist scored → a.score = b.score →
      cfg.min_similarity_threshold ≤ a.score →
      cfg.min_similarity_threshold ≤ b.score → [a, b].Sublist out) := by
  unfold apply_ranking at hr
  rw [hs] at hr
  simp only [Option.map_some'] at hr
  obtain rfl : (scored.mergeSort scoredLE).filter
      (fun s => decide (cfg.min_similarity_threshold ≤ s.score)) = out := by
    injection hr
  constructor
  · have hp : (scored.mergeSort scoredLE).Pairwise (fun a b => scoredLE a b) :=
      List.sorted_mergeSort scoredLE_trans scoredLE_total scored
    have hp2 : (scored.mergeSort scoredLE).Pairwise
        (fun a b : Scored => b.score ≤ a.score) :=
      hp.imp fun h => by simpa [scoredLE] using h
    exact List.Pairwise.sublist (List.filter_sublist _) hp2
  · intro a b hsub heq hta htb
    have hab : scoredLE a b = true := by
      simp [scoredLE, heq]
    have h1 : [a, b].Sublist (scored.mergeSort scoredLE) :=
      List.pair_sublist_mergeSort scoredLE_trans scoredLE_total hab hsub
    have h2 := h1.filter (fun s => decide (cfg.min_similarity_threshold ≤ s.score))
    rwa [show ([a, b].filter fun s =>
        decide (cfg.min_similarity_threshold ≤ s.score)) = [a, b] from by
      simp [List.filter_cons, hta, htb]] at h2

theorem ksLoginB_eval :
    calculate_keyword_score (strLower "login") (rowToCandidate rowLoginB) = 1/2 := by
  simp only [calculate_keyword_score]
  rw [show pySplitWs (strLower "login") = ["login"] from by decide]
  rw [show (["login"].any fun w =>
      strContains (strLower (rowToCandidate rowLoginB).title) w) = true from by decide]
  rw [show (["login"].filter fun w =>
      strContains (strLower (rowToCandidate rowLoginB).text_blob) w) = [] from by decide]
  rw [show (["login"].any fun w =>
      strContains (strLower (String.intercalate " "
        ((rowToCandidate rowLoginB).tags ++ (rowToCandidate rowLoginB).components))) w)
      = false from by decide]
  norm_num

theorem scoredLoginB_score : scoredLoginB.score = 2/5 := by
  show fused_score defaultConfig
    (calculate_keyword_score (strLower "login") (rowToCandidate rowLoginB)) 0 1 = 2/5
  rw [ksLoginB_eval]
  norm_num [fused_score, defaultConfig]

theorem applyRankLoginPair_eval :
    apply_ranking defaultConfig "login"
      [rowToCandidate rowLogin, rowToCandidate rowLoginB]
      = some [scoredLogin, scoredLoginB] := by
  have h1 : scoreList defaultConfig (strLower "login")
      [rowToCandidate rowLogin, rowToCandidate rowLoginB]
      = some [scoredLogin, scoredLoginB] := rfl
  unfold apply_ranking
  rw [h1]
  simp only [Option.map_some']
  have hle : scoredLE scoredLogin scoredLoginB = true := by
    simp [scoredLE, scoredLogin_score, scoredLoginB_score]
  have hsorted : List.Pairwise (fun a b : Scored => scoredLE a b)
      [scoredLogin, scoredLoginB] := by
    simp [List.pairwise_cons, hle]
  rw [List.mergeSort_of_sorted hsorted]
  have hf : ([scoredLogin, scoredLoginB].filter fun s =>
      decide (defaultConfig.min_similarity_threshold ≤ s.score))
      = [scoredLogin, scoredLoginB] := by
    simp [List.filter_cons, scoredLogin_score, scoredLoginB_score, defaultConfig]
    norm_num
  rw [hf]

/-- C6, witness: the two concrete equal-score candidates keep their
keyword-stage order through the final ranking. -/
theorem ranking_stable_sort_witness :
    [scoredLogin, scoredLoginB].Sublist [scoredLogin, scoredLoginB] :=
  (ranking_stable_sort defaultConfig "login"
      [rowToCandidate rowLogin, rowToCandidate rowLoginB]
      [scoredLogin, scoredLoginB] [scoredLogin, scoredLoginB]
      rfl applyRankLoginPair_eval).2 scoredLogin scoredLoginB
    (List.Sublist.refl _)
    (by rw [scoredLogin_score, scoredLoginB_score])
    (by rw [scoredLogin_score]; norm_num [defaultConfig])
    (by rw [scoredLoginB_score]; norm_num [defaultConfig])

/-- C2, counterexample: with the keyword `"a_c"` — which contains the SQL
LIKE wildcard `_` — `search_by_keywords` returns a document (title
`"abc"`) that does not contain the keyword, case-insensitively, in any of
title, text_blob, tags or components. -/
theorem search_wildcard_cex :
    search_by_keywords [rowAbc] ["a_c"] 200 = [rowToCandidate rowAbc] ∧
    containsKeywordCI (rowToCandidate rowAbc) "a_c" = false := by
  constructor
  · simp [search_by_keywords,
      show [rowAbc].filter (rowMatches ["a_c"]) = [rowAbc] from by decide]
  · decide

/-- C2, amended: for keywords free of the SQL LIKE wildcards `%` and `_`,
every document returned by `search_by_keywords` contains at least one
queried keyword, case-insensitively, as a substring of its title,
text_blob, serialized tags or serialized components. -/
theorem search_by_keywords_sound (rows : List Row) (keywords : List String)
    (limit : ℕ) (hw : ∀ kw ∈ keywords, noWild kw.data) :
    ∀ c ∈ search_by_keywords rows keywords limit,
      ∃ kw ∈ keywords, containsKeywordCI c kw = true := by
  intro c hc
  unfold search_by_keywords at hc
  split at hc
  · cases hc
  · obtain ⟨r, hr, rfl⟩ := List.mem_map.mp hc
    have hr2 : r ∈ (rows.filter (rowMatches keywords)).mergeSort rowLE :=
      List.mem_of_mem_take hr
    rw [List.mem_mergeSort] at hr2
    have hmatch : rowMatches keywords r = true := (List.mem_filter.mp hr2).2
    unfold rowMatches at hmatch
    rw [List.any_eq_true] at hmatch
    obtain ⟨kw, hkw, hm⟩ := hmatch
    refine ⟨kw, hkw, ?_⟩
    have hnw : noWild (strLower kw).data := noWild_strLower kw (hw kw hkw)
    rw [Bool.or_eq_true, Bool.or_eq_true, Bool.or_eq_true] at hm
    unfold containsKeywordCI
    rw [Bool.or_eq_true, Bool.or_eq_true, Bool.or_eq_true]
    have conv1 : ∀ field : String,
        likeMatch (likePattern (strLower kw)) (strLower field).data = true →
        strContains (strLower field) (strLower kw) = true := by
      intro field hfield
      exact (strContains_iff _ _).mpr
        ((likeMatch_pattern_iff (strLower kw) hnw _).mp hfield)
    rcases hm with ((h1 | h2) | h3) | h4
    · exact Or.inl (Or.inl (Or.inl (conv1 r.title h1)))
    · exact Or.inl (Or.inl (Or.inr (conv1 r.text_blob h2)))
    · exact Or.inl (Or.inr (conv1 (jsonDumpsList r.tags) h3))
    · exact Or.inr (conv1 (jsonDumpsList r.components) h4)

/-- C2, witness: the wildcard-free keyword `"login"` really occurs in the
returned document. -/
theorem search_by_keywords_sound_witness :
    containsKeywordCI (rowToCandidate rowLogin) "login" = true := by
  obtain ⟨kw, hkw, h⟩ := search_by_keywords_sound [rowLogin] ["login"] 200
    (by decide) (rowToCandidate rowLogin)
    (by rw [searchLoginKw_eval]; exact List.mem_singleton.mpr rfl)
  rw [List.mem_singleton] at hkw
  subst hkw
  exact h

theorem filter_ne_id_length (rows : List Row) (v : String)
    (hnd : (rows.map Row.id).Nodup) (hin : v ∈ rows.map Row.id) :
    (rows.filter fun x => x.id != v).length + 1 = rows.length := by
  induction rows with
  | nil => cases hin
  | cons r rest ih =>
    rw [List.map_cons, List.nodup_cons] at hnd
    obtain ⟨hnotin, hnd'⟩ := hnd
    rw [List.map_cons, List.mem_cons] at hin
    rcases hin with rfl | hin'
    · have hfr : (rest.filter fun x => x.id != r.id) = rest := by
        rw [List.filter_eq_self]
        intro x hx
        rw [bne_iff_ne]
        intro hxe
        exact hnotin (hxe ▸ List.mem_map_of_mem Row.id hx)
      simp [List.filter_cons, hfr]
    · have hne : (r.id != v) = true := by
        rw [bne_iff_ne]
        intro he
        exact hnotin (by rw [he]; exact hin')
      have := ih hnd' hin'
      simp [List.filter_cons, hne]
      omega

/-- C7: storing a test case whose id already exists in the store leaves
the total row count unchanged, and the row under that id afterwards
carries exactly the new store's field values. -/
theorem store_overwrite (genId : TestCase → String) (rows : List Row)
    (tc : TestCase) (vec : Option (List ℚ))
    (hnd : (rows.map Row.id).Nodup)
    (hin : tcId genId tc ∈ rows.map Row.id) :
    (store_test_case genId rows tc vec).length = rows.length ∧
    (store_test_case genId rows tc vec).filter
        (fun r => r.id == tcId genId tc) = [buildRow genId tc vec] := by
  unfold store_test_case
  have hid : (buildRow genId tc vec).id = tcId genId tc := rfl
  constructor
  · rw [List.length_append]
    simp only [hid]
    have := filter_ne_id_length rows (tcId genId tc) hnd hin
    simp only [List.length_cons, List.length_nil]
    omega
  · rw [List.filter_append]
    have h1 : ((rows.filter fun x => x.id != (buildRow genId tc vec).id).filter
        fun r => r.id == tcId genId tc) = [] := by
      rw [List.filter_eq_nil_iff]
      intro x hx
      have hx2 := (List.mem_filter.mp hx).2
      rw [hid, bne_iff_ne] at hx2
      simp [hx2]
    have h2 : ([buildRow genId tc vec].filter
        fun r => r.id == tcId genId tc) = [buildRow genId tc vec] := by
      simp [List.filter_cons, hid]
    rw [h1, h2, List.nil_append]

/-- C7, witness: re-storing id `"t1"` over the one-row store. -/
theorem store_overwrite_witness :
    (store_test_case (fun _ => "gen") [rowLogin] tcDup none).length = 1 ∧
    (store_test_case (fun _ => "gen") [rowLogin] tcDup none).filter
      (fun r => r.id == tcId (fun _ => "gen") tcDup)
      = [buildRow (fun _ => "gen") tcDup none] :=
  store_overwrite (fun _ => "gen") [rowLogin] tcDup none (by decide) (by decide)

/-- C8, counterexample: with the database file present but the embedding
provider failing to load, `load_from_cache` returns an absent result
rather than a keyword-only retriever. -/
theorem load_from_cache_cex :
    load_from_cache
      { dbExists := true, rows := [], cachedConfig := none,
        providerAvailable := none } none = none := rfl

/-- C8, amended: `load_from_cache` returns an absent result (never an
exception) both when the store is missing and when the embedding provider
fails to attach; only when the store exists and the provider loads does it
return a retriever, bound to the store with the cached (or supplied, or
default) configuration. -/
theorem load_from_cache_behavior (env : CacheEnv) (config : Option Config) :
    (env.dbExists = false → load_from_cache env config = none) ∧
    (env.providerAvailable = none → load_from_cache env config = none) ∧
    (∀ m, env.dbExists = true → env.providerAvailable = some m →
      load_from_cache env config =
        some { store := env.rows,
               config := env.cachedConfig.getD (config.getD defaultConfig),
               embedding_model := some m }) := by
  refine ⟨fun h => ?_, fun h => ?_, fun m hdb hm => ?_⟩
  · unfold load_from_cache
    rw [h]
    rfl
  · unfold load_from_cache
    rw [h]
    split <;> rfl
  · unfold load_from_cache
    rw [hdb, hm]
    rfl

/-- C8, witness: a missing database file yields an absent retriever. -/
theorem load_from_cache_behavior_witness :
    load_from_cache
      { dbExists := false, rows := [], cachedConfig := none,
        providerAvailable := none } (some defaultConfig) = none :=
  (load_from_cache_behavior
    { dbExists := false, rows := [], cachedConfig := none,
      providerAvailable := none } (some defaultConfig)).1 rfl

end HybridRetrieval
